import Mathlib

set_option maxRecDepth 1000000

/-!
Verification of the bash-safety hook
(`src/plugins/bash-safety/scripts/bash_safety_hook.py`).

The hook reads one JSON request from stdin, and for tool `Bash` with a
non-empty command it evaluates a fixed taxonomy of regular-expression
rules against the stripped command text with `re.IGNORECASE | re.MULTILINE`
semantics; on any match it logs to an audit sink, prints the reasons to
stderr and exits 2, otherwise it exits 0 (malformed input exits 1).

The embedding below models the Python `re` fragment actually used by the
taxonomy (literals, classes, `.`, `$`, `\b`, `\s`, `\w`, `\d`, groups,
alternation, `*` `+` `?`, and the backreference `\1`) over ASCII text:
a pattern string is compiled by `compileRe` (a structurally invalid pattern
yields `none`, modelling `re.error`), and `searchFrom` is a backtracking
matcher that decides whether the pattern matches anywhere in the input,
exactly the boolean use `re.search` is put to in the hook.  The matcher is
fuelled; the fuel chosen by `fuelFor` strictly dominates the depth of any
backtracking path for these patterns and inputs.
-/

namespace BashSafety

/-! ### Characters (ASCII fragment of the Python text model) -/

/-- ASCII lower-casing, the fragment of Python case folding exercised by
`re.IGNORECASE` on these patterns and inputs. -/
def toLowerAscii (c : Char) : Char :=
  if 65 ≤ c.toNat ∧ c.toNat ≤ 90 then Char.ofNat (c.toNat + 32) else c

/-- Case-insensitive character equality. -/
def ciEq (a b : Char) : Bool :=
  toLowerAscii a == toLowerAscii b

/-- Python `str.strip()` / regex `\s` whitespace, ASCII fragment. -/
def isPyWs (c : Char) : Bool :=
  c == ' ' || c == '\t' || c == '\n' || c == '\r' || c == '\x0b' || c == '\x0c'

/-- Regex `\w` word characters, ASCII fragment. -/
def isWordAscii (c : Char) : Bool :=
  (97 ≤ c.toNat && c.toNat ≤ 122) || (65 ≤ c.toNat && c.toNat ≤ 90) ||
  (48 ≤ c.toNat && c.toNat ≤ 57) || c == '_'

/-- Regex `\d` digits. -/
def isDigitAscii (c : Char) : Bool :=
  48 ≤ c.toNat && c.toNat ≤ 57

def isWordOpt : Option Char → Bool
  | none => false
  | some c => isWordAscii c

/-- Python `str.strip()` on the underlying character list. -/
def pyStrip (l : List Char) : List Char :=
  ((l.dropWhile isPyWs).reverse.dropWhile isPyWs).reverse

/-! ### Regex abstract syntax -/

inductive ClassItem where
  | single (c : Char)
  | range (lo hi : Char)
deriving DecidableEq

inductive PredClass where
  | space
  | word
  | digit
deriving DecidableEq

inductive Re where
  | eps
  | lit (c : Char)
  | anyChar
  | cls (neg : Bool) (items : List ClassItem)
  | pcls (p : PredClass)
  | eol
  | wordB
  | seq (a b : Re)
  | alt (a b : Re)
  | star (r : Re)
  | group (idx : Nat) (r : Re)
  | backref (idx : Nat)
deriving DecidableEq

/-- Node count, used only to compute a sufficient matcher fuel. -/
def reSize : Re → Nat
  | Re.seq a b => reSize a + reSize b + 1
  | Re.alt a b => reSize a + reSize b + 1
  | Re.star r => reSize r + 1
  | Re.group _ r => reSize r + 1
  | _ => 1

/-! ### Pattern parser (models `re.compile`; `none` models `re.error`) -/

def parseClassItems : Nat → List Char → Option (List ClassItem × List Char)
  | 0, _ => none
  | _+1, [] => none
  | _+1, ']' :: rest => some ([], rest)
  | f+1, c :: '-' :: d :: rest =>
    if d == ']' then none
    else
      match parseClassItems f rest with
      | some (items, r) => some (ClassItem.range c d :: items, r)
      | none => none
  | f+1, c :: rest =>
    match parseClassItems f rest with
    | some (items, r) => some (ClassItem.single c :: items, r)
    | none => none

/-- A partial parse result: parsed node, remaining pattern characters,
updated group counter. -/
abbrev PRes := Option (Re × List Char × Nat)

abbrev PFun := List Char → Nat → PRes

/-- The four mutually recursive productions of the pattern grammar, at a
fixed fuel level. -/
structure ParserPack where
  alt : PFun
  cat : PFun
  atomQ : PFun
  atom : PFun

def parseFailPack : ParserPack :=
  { alt := fun _ _ => none, cat := fun _ _ => none,
    atomQ := fun _ _ => none, atom := fun _ _ => none }

/-- One fuel level of the recursive-descent grammar
`alternation := concat (\x7c concat)*`, `concat := (atom quantifier?)*`,
with capturing groups numbered by order of the opening parenthesis. -/
def parseStepPack (ih : ParserPack) : ParserPack where
  alt := fun cs g =>
    match ih.cat cs g with
    | none => none
    | some (r1, rest1, g1) =>
      match rest1 with
      | '|' :: rest2 =>
        match ih.alt rest2 g1 with
        | none => none
        | some (r2, rest3, g2) => some (Re.alt r1 r2, rest3, g2)
      | _ => some (r1, rest1, g1)
  cat := fun cs g =>
    match cs with
    | [] => some (Re.eps, [], g)
    | ')' :: _ => some (Re.eps, cs, g)
    | '|' :: _ => some (Re.eps, cs, g)
    | _ =>
      match ih.atomQ cs g with
      | none => none
      | some (r1, rest1, g1) =>
        match ih.cat rest1 g1 with
        | none => none
        | some (r2, rest2, g2) => some (Re.seq r1 r2, rest2, g2)
  atomQ := fun cs g =>
    match ih.atom cs g with
    | none => none
    | some (r, rest, g1) =>
      match rest with
      | '*' :: rest2 => some (Re.star r, rest2, g1)
      | '+' :: rest2 => some (Re.seq r (Re.star r), rest2, g1)
      | '?' :: rest2 => some (Re.alt r Re.eps, rest2, g1)
      | _ => some (r, rest, g1)
  atom := fun cs g =>
    match cs with
    | [] => none
    | '(' :: rest =>
      (match ih.alt rest (g+1) with
       | none => none
       | some (r, rest2, g2) =>
         match rest2 with
         | ')' :: rest3 => some (Re.group (g+1) r, rest3, g2)
         | _ => none)
    | '[' :: '^' :: rest =>
      (match parseClassItems (rest.length + 1) rest with
       | none => none
       | some (items, rest2) => some (Re.cls true items, rest2, g))
    | '[' :: rest =>
      (match parseClassItems (rest.length + 1) rest with
       | none => none
       | some (items, rest2) => some (Re.cls false items, rest2, g))
    | '\\' :: e :: rest =>
      if e == 's' then some (Re.pcls PredClass.space, rest, g)
      else if e == 'w' then some (Re.pcls PredClass.word, rest, g)
      else if e == 'd' then some (Re.pcls PredClass.digit, rest, g)
      else if e == 'b' then some (Re.wordB, rest, g)
      else if e == 'n' then some (Re.lit '\n', rest, g)
      else if e == 't' then some (Re.lit '\t', rest, g)
      else if isDigitAscii e && !(e == '0') then some (Re.backref (e.toNat - 48), rest, g)
      else if isWordAscii e then none
      else some (Re.lit e, rest, g)
    | '\\' :: [] => none
    | '$' :: rest => some (Re.eol, rest, g)
    | '.' :: rest => some (Re.anyChar, rest, g)
    | '*' :: _ => none
    | '+' :: _ => none
    | '?' :: _ => none
    | ')' :: _ => none
    | '|' :: _ => none
    | c :: rest => some (Re.lit c, rest, g)

/-- The grammar at fuel `f`, built by plain `Nat.rec` so that it reduces
inside the kernel. -/
def parsersAt (f : Nat) : ParserPack :=
  Nat.rec parseFailPack (fun _ ih => parseStepPack ih) f

def parseAlt (f : Nat) (cs : List Char) (g : Nat) : PRes := (parsersAt f).alt cs g

/-- Compile a pattern string; `none` models an `re.error` at compile time. -/
def compileRe (p : String) : Option Re :=
  match parseAlt (4 * p.length + 16) p.data 0 with
  | some (r, [], _) => some r
  | _ => none

/-! ### Backtracking matcher -/

/-- Capture records: group index, input rest at group start, rest at group
end.  The captured text is recovered lazily by `capLookup`. -/
abbrev Caps := List (Nat × List Char × List Char)

abbrev MCont := Bool → Option Char → List Char → Caps → Bool

def classItemMatches (c : Char) : ClassItem → Bool
  | ClassItem.single d => ciEq c d
  | ClassItem.range lo hi =>
    (toLowerAscii lo).toNat ≤ (toLowerAscii c).toNat &&
    (toLowerAscii c).toNat ≤ (toLowerAscii hi).toNat

def predMatches (p : PredClass) (c : Char) : Bool :=
  match p with
  | PredClass.space => isPyWs c
  | PredClass.word => isWordAscii c
  | PredClass.digit => isDigitAscii c

/-- Most recent capture of group `i`, as the captured text. -/
def capLookup (caps : Caps) (i : Nat) : Option (List Char) :=
  match caps with
  | [] => none
  | (j, s, e) :: rest =>
    if j == i then some (s.take (s.length - e.length)) else capLookup rest i

/-- Consume a backreferenced text case-insensitively, returning the new
previous-character and remaining input. -/
def consumeBackref : List Char → Option Char → List Char → Option (Option Char × List Char)
  | [], prev, rest => some (prev, rest)
  | _ :: _, _, [] => none
  | p :: ps, _, x :: xs => if ciEq p x then consumeBackref ps (some x) xs else none

/-- CPS backtracking matcher.  `prev` is the character just before the
current position (for `\b`), the continuation receives a flag telling
whether this node consumed input (used to cut empty `star` iterations),
the new previous character, the remaining input and the captures.
Alternatives and star iterations are explored exhaustively, so the result
is `true` exactly when some way of matching exists, which is all
`re.search`'s boolean use observes.  The fuel bounds the recursion depth;
`fuelFor` below always provides enough. -/
def M : Nat → Re → Option Char → List Char → Caps → MCont → Bool
  | 0, _, _, _, _, _ => false
  | f+1, re, prev, rest, caps, k =>
    match re with
    | Re.eps => k false prev rest caps
    | Re.lit c =>
      match rest with
      | [] => false
      | x :: xs => ciEq c x && k true (some x) xs caps
    | Re.anyChar =>
      match rest with
      | [] => false
      | x :: xs => !(x == '\n') && k true (some x) xs caps
    | Re.cls neg items =>
      match rest with
      | [] => false
      | x :: xs =>
        (if neg then !(items.any (classItemMatches x)) else items.any (classItemMatches x)) &&
        k true (some x) xs caps
    | Re.pcls p =>
      match rest with
      | [] => false
      | x :: xs => predMatches p x && k true (some x) xs caps
    | Re.eol =>
      (match rest with
       | [] => true
       | x :: _ => x == '\n') && k false prev rest caps
    | Re.wordB =>
      (isWordOpt prev != isWordOpt rest.head?) && k false prev rest caps
    | Re.seq a b =>
      M f a prev rest caps (fun c1 p1 r1 caps1 =>
        M f b p1 r1 caps1 (fun c2 p2 r2 caps2 => k (c1 || c2) p2 r2 caps2))
    | Re.alt a b =>
      M f a prev rest caps k || M f b prev rest caps k
    | Re.star r =>
      k false prev rest caps ||
      M f r prev rest caps (fun c1 p1 r1 caps1 =>
        c1 && M f (Re.star r) p1 r1 caps1 (fun _ p2 r2 caps2 => k true p2 r2 caps2))
    | Re.group i r =>
      M f r prev rest caps (fun c1 p1 r1 caps1 => k c1 p1 r1 ((i, rest, r1) :: caps1))
    | Re.backref i =>
      match capLookup caps i with
      | none => false
      | some cap =>
        match consumeBackref cap prev rest with
        | none => false
        | some (p1, r1) => k (!cap.isEmpty) p1 r1 caps

def kTrue : MCont := fun _ _ _ _ => true

/-- Try a match at every position, left to right, threading the previous
character: the boolean content of `re.search`. -/
def searchFrom (f : Nat) (re : Re) : Option Char → List Char → Bool
  | prev, [] => M f re prev [] [] kTrue
  | prev, x :: xs => M f re prev (x :: xs) [] kTrue || searchFrom f re (some x) xs

/-- Fuel that strictly dominates the backtracking depth on this pattern
and input. -/
def fuelFor (re : Re) (input : List Char) : Nat :=
  (input.length + 2) * (reSize re + 2)

/-- `re.search(pattern, input, re.IGNORECASE | re.MULTILINE)` used as a
boolean; `none` models `re.error` escaping from `re.search`. -/
def searchOpt (pattern : String) (input : List Char) : Option Bool :=
  match compileRe pattern with
  | none => none
  | some re => some (searchFrom (fuelFor re input) re none input)

/-! ### Pattern taxonomy (verbatim pattern and message strings from the
hook; `\x7b`/`\x7d` denote the brace characters) -/

def DESTRUCTIVE_PATTERNS : List (String × String) :=
  [("rm\\s+(-[a-zA-Z]*[rf][a-zA-Z]*\\s+)*(/\\s*$|/\\s*[;&|]|/\\s*\\n)",
    "CRITICAL: Recursive deletion of root filesystem"),
   ("rm\\s+.*-[a-zA-Z]*r[a-zA-Z]*.*\\s+/\\*",
    "CRITICAL: Recursive deletion of all root contents"),
   ("rm\\s+(-[a-zA-Z]+\\s+)*-[a-zA-Z]*r[a-zA-Z]*(\\s+-[a-zA-Z]+)*\\s+(/|/bin|/boot|/dev|/etc|/home|/lib|/opt|/root|/sbin|/sys|/usr|/var)(\\s|$|[;&|])",
    "CRITICAL: Attempted recursive deletion of system directory"),
   ("rm\\s+.*--no-preserve-root",
    "CRITICAL: Attempt to bypass root filesystem protection"),
   ("mkfs\\.",
    "CRITICAL: Filesystem format operation"),
   ("dd\\s+.*of=/dev/(sd[a-z]|nvme|hd[a-z]|vd[a-z])",
    "CRITICAL: Direct disk write"),
   ("\\bshred\\s+.*(/dev/(sd[a-z]|nvme|hd[a-z]|vd[a-z])|/dev/[a-z]+[0-9]*)",
    "CRITICAL: Disk shredding operation"),
   ("\\bwipefs\\s+",
    "CRITICAL: Filesystem signature wiping")]

def RESOURCE_EXHAUSTION_PATTERNS : List (String × String) :=
  [(":\\(\\)\\s*\\\x7b\\s*:\\s*\\|\\s*:\\s*&\\s*\\\x7d\\s*;?\\s*:",
    "CRITICAL: Fork bomb detected"),
   ("\\b(\\w)\\(\\)\\s*\\\x7b\\s*\\1\\s*\\|\\s*\\1\\s*&\\s*\\\x7d\\s*;?\\s*\\1\\b",
    "CRITICAL: Fork bomb detected (generic pattern)"),
   ("while\\s*(true|1|:)\\s*;\\s*do\\s*(cat|yes|dd)",
    "WARNING: Infinite resource consumption loop")]

def NETWORK_PATTERNS : List (String × String) :=
  [("(nc|ncat|netcat)\\s+.*-e\\s*/bin/(ba)?sh",
    "CRITICAL: Reverse shell attempt"),
   ("bash\\s+-i\\s+>&\\s*/dev/tcp/",
    "CRITICAL: Bash reverse shell"),
   ("(curl|wget)\\s+.*\\|\\s*(ba)?sh",
    "WARNING: Remote script execution via pipe to shell"),
   ("(curl|wget)\\s+.*\\|\\s*python[23]?",
    "WARNING: Remote script execution via pipe to python"),
   ("(curl|wget)\\s+.*\\|\\s*sudo",
    "CRITICAL: Remote script with sudo")]

def PRIVILEGE_PATTERNS : List (String × String) :=
  [(">\\s*/etc/(passwd|shadow|sudoers)",
    "CRITICAL: Attempt to overwrite auth files"),
   (">>\\s*/etc/(passwd|shadow|sudoers)",
    "CRITICAL: Attempt to append to auth files"),
   ("\\btee\\s+(-[a-zA-Z]+\\s+)*(/etc/(passwd|shadow|sudoers)|/etc/sudoers\\.d/)",
    "CRITICAL: Attempt to write to auth files via tee"),
   ("chmod\\s+(-[a-zA-Z]+\\s+)*777\\s+/",
    "CRITICAL: Dangerous permission change")]

def ALL_PATTERNS : List (String × String) :=
  DESTRUCTIVE_PATTERNS ++ RESOURCE_EXHAUSTION_PATTERNS ++ NETWORK_PATTERNS ++ PRIVILEGE_PATTERNS

/-! ### `validate_command` -/

/-- The loop body of `validate_command` over an arbitrary taxonomy:
for each `(pattern, message)` in order, append it to the issues when
`re.search(pattern, command.strip(), re.IGNORECASE | re.MULTILINE)` finds
a match; an `re.error` (modelled by `searchOpt = none`) is swallowed by
the `try`/`except`, skipping only that rule. -/
def validateWith (patterns : List (String × String)) (command : String) :
    List (String × String) :=
  patterns.filter (fun pm =>
    match searchOpt pm.1 (pyStrip command.data) with
    | none => false
    | some b => b)

/-- `validate_command` from the hook: evaluate every rule of the taxonomy
against the stripped command. -/
def validate_command (command : String) : List (String × String) :=
  validateWith ALL_PATTERNS command

/-! ### The hook process (`main`)

`shared.logging.get_logger`, the audit sink used by
`log_blocked_command`, is not part of the sources; following the spec it
is modelled as an abstract best-effort collaborator whose success or
failure (`Bool` result) is absorbed and never influences the hook. -/

/-- Abstract audit sink: receives the command and the reasons, returns
success or failure; modelled from the spec: best-effort, failure-tolerant. -/
def AuditSink : Type := String → List String → Bool

/-- A parsed request: `tool_name` and the nested `tool_input.command`,
each `none` when the key is absent (`dict.get`). -/
structure HookRequest where
  tool_name : Option String
  tool_input_command : Option String
deriving DecidableEq

/-- Observable actions of one hook invocation, in order. -/
inductive HookEvent where
  | auditCall (command : String) (reasons : List String)
  | stderrLine (line : String)
deriving DecidableEq

structure HookResult where
  events : List HookEvent
  exitCode : Nat
deriving DecidableEq

/-- `log_blocked_command`: forwards the command and the messages of the
issues to the audit sink; the sink's outcome is absorbed. -/
def log_blocked_command (sink : AuditSink) (command : String)
    (issues : List (String × String)) : HookEvent :=
  let reasons := issues.map (fun pm => pm.2)
  let _ := sink command reasons
  HookEvent.auditCall command reasons

/-- `main`: `none` models a stdin payload that fails to parse as a
structured record (exit 1); otherwise filter by tool name, by emptiness of
the command, then block (exit 2, audit + stderr reasons) exactly when
`validate_command` returns issues, else allow (exit 0). -/
def runMain (sink : AuditSink) (input : Option HookRequest) : HookResult :=
  match input with
  | none => { events := [], exitCode := 1 }
  | some req =>
    if req.tool_name ≠ some "Bash" then { events := [], exitCode := 0 }
    else
      let command := req.tool_input_command.getD ""
      if command = "" then { events := [], exitCode := 0 }
      else
        let issues := validate_command command
        if issues = [] then { events := [], exitCode := 0 }
        else
          { events :=
              log_blocked_command sink command issues ::
              HookEvent.stderrLine "BLOCKED: Dangerous command detected!" ::
              issues.map (fun pm => HookEvent.stderrLine ("  - " ++ pm.2)),
            exitCode := 2 }

/-- The stderr transcript of an invocation, in emission order. -/
def stderrLines (r : HookResult) : List String :=
  r.events.filterMap (fun e =>
    match e with
    | HookEvent.stderrLine s => some s
    | _ => none)

/-- Number of audit-sink invocations of a run. -/
def auditCallCount (r : HookResult) : Nat :=
  (r.events.filter (fun e =>
    match e with
    | HookEvent.auditCall _ _ => true
    | _ => false)).length

/-! ### Named rules referenced by the theorems -/

def rootDeletionPattern : String :=
  "rm\\s+(-[a-zA-Z]*[rf][a-zA-Z]*\\s+)*(/\\s*$|/\\s*[;&|]|/\\s*\\n)"

def rootDeletionRule : String × String :=
  (rootDeletionPattern, "CRITICAL: Recursive deletion of root filesystem")

def sysDirMessage : String :=
  "CRITICAL: Attempted recursive deletion of system directory"

def genericForkBombPattern : String :=
  "\\b(\\w)\\(\\)\\s*\\\x7b\\s*\\1\\s*\\|\\s*\\1\\s*&\\s*\\\x7d\\s*;?\\s*\\1\\b"

def genericForkBombRule : String × String :=
  (genericForkBombPattern, "CRITICAL: Fork bomb detected (generic pattern)")

def overwriteAuthPattern : String := ">\\s*/etc/(passwd|shadow|sudoers)"

def overwriteAuthRule : String × String :=
  (overwriteAuthPattern, "CRITICAL: Attempt to overwrite auth files")

def appendAuthPattern : String := ">>\\s*/etc/(passwd|shadow|sudoers)"

def appendAuthRule : String × String :=
  (appendAuthPattern, "CRITICAL: Attempt to append to auth files")

/-- The effective nested command of a request (`dict.get` with default `""`,
collapsing absent and empty). -/
def reqCommand (req : HookRequest) : String := req.tool_input_command.getD ""

/-! ### Helper lemmas -/

/-- A rule of the taxonomy whose search succeeds on the stripped command is
reported by the validation loop. -/
theorem mem_validateWith {patterns : List (String × String)} {command : String}
    {pm : String × String} (hmem : pm ∈ patterns)
    (hchk : searchOpt pm.1 (pyStrip command.data) = some true) :
    pm ∈ validateWith patterns command := by
  unfold validateWith
  refine List.mem_filter.2 ⟨hmem, ?_⟩
  simp [hchk]

/-- A list containing two distinct elements has length at least two. -/
theorem two_le_length_of_mem_ne {α : Type} {a b : α} :
    ∀ {l : List α}, a ∈ l → b ∈ l → a ≠ b → 2 ≤ l.length := by
  intro l
  induction l with
  | nil => intro h; cases h
  | cons x xs ih =>
    intro ha hb hne
    rcases List.mem_cons.1 ha with ha1 | ha2
    · rcases List.mem_cons.1 hb with hb1 | hb2
      · exact absurd (ha1.trans hb1.symm) hne
      · have : 1 ≤ xs.length := List.length_pos.2 (List.ne_nil_of_mem hb2)
        simpa [List.length_cons] using Nat.succ_le_succ this
    · have : 1 ≤ xs.length := List.length_pos.2 (List.ne_nil_of_mem ha2)
      simpa [List.length_cons] using Nat.succ_le_succ this

/-! ### C1, C2, C3, C9: the protocol adapter -/

/-- C1: for every request that parses, the exit status is 0 exactly when
the tool is not `Bash`, or the nested command is empty/absent, or
`validate_command` yields no match; and it is 2 exactly otherwise. -/
theorem exit_status_characterisation (sink : AuditSink) (req : HookRequest) :
    ((runMain sink (some req)).exitCode = 0 ↔
      (req.tool_name ≠ some "Bash" ∨ reqCommand req = "" ∨
        validate_command (reqCommand req) = [])) ∧
    ((runMain sink (some req)).exitCode = 2 ↔
      ¬ (req.tool_name ≠ some "Bash" ∨ reqCommand req = "" ∨
        validate_command (reqCommand req) = [])) := by
  by_cases h1 : req.tool_name = some "Bash"
  · by_cases h2 : req.tool_input_command.getD "" = ""
    · have he : (runMain sink (some req)).exitCode = 0 := by simp [runMain, h1, h2]
      rw [he]
      constructor <;> simp [reqCommand, h1, h2]
    · by_cases h3 : validate_command (req.tool_input_command.getD "") = []
      · have he : (runMain sink (some req)).exitCode = 0 := by simp [runMain, h1, h2, h3]
        rw [he]
        constructor <;> simp [reqCommand, h1, h2, h3]
      · have he : (runMain sink (some req)).exitCode = 2 := by simp [runMain, h1, h2, h3]
        rw [he]
        constructor <;> simp [reqCommand, h1, h2, h3]
  · have he : (runMain sink (some req)).exitCode = 0 := by simp [runMain, h1]
    rw [he]
    constructor <;> simp [h1]

/-- The stderr extraction of the per-issue lines is exactly the messages. -/
theorem filterMap_stderr_map (issues : List (String × String)) :
    List.filterMap
      ((fun e =>
        match e with
        | HookEvent.stderrLine s => some s
        | _ => none) ∘ (fun pm => HookEvent.stderrLine ("  - " ++ pm.2)))
      issues = issues.map (fun pm => "  - " ++ pm.2) := by
  induction issues with
  | nil => rfl
  | cons x xs ih => simp only [List.filterMap_cons, Function.comp_apply, List.map_cons]; rw [ih]

/-- C2: on a blocked invocation the stderr transcript is the banner line
followed by exactly one line per match, carrying each match's message in
taxonomy order (the match list is a sublist of the taxonomy), with no
deduplication and no truncation. -/
theorem blocked_reasons_exhaustive (sink : AuditSink) (req : HookRequest)
    (ht : req.tool_name = some "Bash")
    (hc : reqCommand req ≠ "")
    (hi : validate_command (reqCommand req) ≠ []) :
    stderrLines (runMain sink (some req)) =
      "BLOCKED: Dangerous command detected!" ::
        (validate_command (reqCommand req)).map (fun pm => "  - " ++ pm.2) ∧
    (stderrLines (runMain sink (some req))).length =
      (validate_command (reqCommand req)).length + 1 ∧
    List.Sublist (validate_command (reqCommand req)) ALL_PATTERNS := by
  have hc' : req.tool_input_command.getD "" ≠ "" := hc
  have hi' : validate_command (req.tool_input_command.getD "") ≠ [] := hi
  have hev : stderrLines (runMain sink (some req)) =
      "BLOCKED: Dangerous command detected!" ::
        (validate_command (reqCommand req)).map (fun pm => "  - " ++ pm.2) := by
    simp [runMain, reqCommand, ht, hc', hi', stderrLines,
      log_blocked_command, List.filterMap_cons, filterMap_stderr_map]
  refine ⟨hev, ?_, ?_⟩
  · rw [hev]
    simp
  · unfold validate_command validateWith
    exact List.filter_sublist ALL_PATTERNS

/-- C2 witness: a concretely blocked request surfaces every matched
reason, one line per match. -/
theorem blocked_reasons_exhaustive_witness :
    stderrLines (runMain (fun _ _ => false) (some ⟨some "Bash", some "rm -rf /"⟩)) =
      ["BLOCKED: Dangerous command detected!",
       "  - CRITICAL: Recursive deletion of root filesystem",
       "  - CRITICAL: Attempted recursive deletion of system directory"] :=
  ((blocked_reasons_exhaustive (fun _ _ => false) ⟨some "Bash", some "rm -rf /"⟩
    rfl (by decide) (by decide)).1).trans (by decide)

/-- C3: on a blocked invocation the audit sink is invoked with the command
and the matched messages before anything is written to stderr (it is the
first observable event), the exit status is 2, and the whole result is
independent of the sink, so a failing sink changes nothing.  The audit
sink itself (`shared.logging.get_logger`) is not part of the sources and
is modelled from the spec as a failure-absorbing collaborator. -/
theorem audit_first_and_sink_isolated (sink sink' : AuditSink) (req : HookRequest)
    (ht : req.tool_name = some "Bash")
    (hc : reqCommand req ≠ "")
    (hi : validate_command (reqCommand req) ≠ []) :
    (runMain sink (some req)).events.head? =
      some (HookEvent.auditCall (reqCommand req)
        ((validate_command (reqCommand req)).map (fun pm => pm.2))) ∧
    (runMain sink (some req)).exitCode = 2 ∧
    runMain sink (some req) = runMain sink' (some req) := by
  have hc' : req.tool_input_command.getD "" ≠ "" := hc
  have hi' : validate_command (req.tool_input_command.getD "") ≠ [] := hi
  refine ⟨?_, ?_, rfl⟩
  · simp [runMain, reqCommand, ht, hc', hi', log_blocked_command]
  · simp [runMain, reqCommand, ht, hc', hi']

/-- C3 witness: concrete blocked request, with a failing sink on the left
and a succeeding sink on the right. -/
theorem audit_first_and_sink_isolated_witness :
    (runMain (fun _ _ => false) (some ⟨some "Bash", some "rm -rf /"⟩)).events.head? =
      some (HookEvent.auditCall "rm -rf /"
        ["CRITICAL: Recursive deletion of root filesystem",
         "CRITICAL: Attempted recursive deletion of system directory"]) ∧
    runMain (fun _ _ => false) (some ⟨some "Bash", some "rm -rf /"⟩) =
      runMain (fun _ _ => true) (some ⟨some "Bash", some "rm -rf /"⟩) := by
  have h := audit_first_and_sink_isolated (fun _ _ => false) (fun _ _ => true)
    ⟨some "Bash", some "rm -rf /"⟩ rfl (by decide) (by decide)
  exact ⟨h.1.trans (by decide), h.2.2⟩

/-- C9: a request that fails to parse exits with status 1, produces no
events — in particular zero audit-sink invocations — for every sink. -/
theorem malformed_request_errored (sink : AuditSink) :
    runMain sink none = { events := [], exitCode := 1 } ∧
    auditCallCount (runMain sink none) = 0 :=
  ⟨rfl, rfl⟩

/-! ### C4: a structurally invalid matcher is skipped -/

/-- C4: `validate_command`'s loop is total, and a rule whose matcher fails
to compile (`re.error`, modelled by `compileRe = none`) is skipped while
every rule before and after it is still evaluated: dropping the bad rule
from the taxonomy does not change the result on any command. -/
theorem invalid_matcher_skip (tax1 tax2 : List (String × String))
    (p msg command : String) (hbad : compileRe p = none) :
    validateWith (tax1 ++ (p, msg) :: tax2) command =
      validateWith (tax1 ++ tax2) command := by
  unfold validateWith
  rw [List.filter_append, List.filter_append, List.filter_cons]
  simp [searchOpt, hbad]

/-- C4 witness: an unclosed group fails to compile, the rule is skipped and
the following rule still fires. -/
theorem invalid_matcher_skip_witness :
    validateWith ([] ++ ("(", "bad rule") ::
        [("mkfs\\.", "CRITICAL: Filesystem format operation")]) "mkfs.ext4 /dev/sdb1" =
      [("mkfs\\.", "CRITICAL: Filesystem format operation")] :=
  (invalid_matcher_skip [] [("mkfs\\.", "CRITICAL: Filesystem format operation")]
    "(" "bad rule" "mkfs.ext4 /dev/sdb1" (by decide)).trans (by decide)

/-! ### C5 (counterexample part), C6, C7: concrete evaluations -/

/-- C5 counterexample: for the two-character function name `ab` the
fork-bomb command shape yields no match at all from `validate_command` —
in particular no fork-bomb match — so the generic fork-bomb rule is not
generalized over arbitrary single-token names. -/
theorem generic_fork_bomb_multi_char_counterexample :
    genericForkBombRule ∉ validate_command "ab()\x7b ab|ab& \x7d;ab" ∧
    validate_command "ab()\x7b ab|ab& \x7d;ab" = [] := by decide

/-- All ASCII word characters (`[a-zA-Z0-9_]`). -/
def asciiWordChars : List Char :=
  ((List.range 128).map Char.ofNat).filter isWordAscii

/-- The fork-bomb command shape `F()\x7b F|F& \x7d;F` for a one-character
name. -/
def forkBombCommand (c : Char) : String :=
  String.mk [c, '(', ')', '\x7b', ' ', c, '|', c, '&', ' ', '\x7d', ';', c]

/-- C5 amended: for every single-character function name — any ASCII word
character `F` — the command `F()\x7b F|F& \x7d;F` yields the generic
fork-bomb match from `validate_command`. -/
theorem generic_fork_bomb_single_char :
    ∀ c ∈ asciiWordChars, genericForkBombRule ∈ validate_command (forkBombCommand c) := by
  have hs : ∀ c ∈ asciiWordChars,
      searchOpt genericForkBombPattern (pyStrip (forkBombCommand c).data) = some true := by
    decide
  intro c hc
  exact mem_validateWith (by decide) (hs c hc)

/-- C5 witness: the single-character name `x`. -/
theorem generic_fork_bomb_single_char_witness :
    genericForkBombRule ∈ validate_command (forkBombCommand 'x') :=
  generic_fork_bomb_single_char 'x' (by decide)

/-- C6: `rm -r -f /`, `rm -rf /` and `rm -fr /` produce identical match
lists, each containing the system-directory rule; an interleaved unrelated
flag (`rm -rf -v /`) still yields the system-directory match. -/
theorem flag_order_tolerance :
    validate_command "rm -r -f /" = validate_command "rm -rf /" ∧
    validate_command "rm -fr /" = validate_command "rm -rf /" ∧
    (validate_command "rm -rf /").map (fun pm => pm.2) =
      ["CRITICAL: Recursive deletion of root filesystem", sysDirMessage] ∧
    sysDirMessage ∈ (validate_command "rm -rf -v /").map (fun pm => pm.2) := by
  decide

/-- C7: `rm -rf ./node_modules` yields zero matches, and recursive
deletion of a subdirectory of a system directory (`rm -rf /etc/myapp`)
matches none of the destructive-filesystem rules. -/
theorem relative_path_exemption :
    validate_command "rm -rf ./node_modules" = [] ∧
    DESTRUCTIVE_PATTERNS.all
      (fun pm => !((validate_command "rm -rf /etc/myapp").contains pm)) = true := by
  decide

/-! ### C8: multi-line containment

To show that a `rm -rf /` line anywhere inside a longer command is found,
we locate the match position inside the stripped text: `str.strip()` can
only remove whitespace before the (non-whitespace) first character and
after the (non-whitespace) last character of the dangerous segment. -/

/-- A successful match at the current position makes the search succeed. -/
theorem searchFrom_here (f : Nat) (re : Re) (prev : Option Char) (rest : List Char)
    (h : M f re prev rest [] kTrue = true) : searchFrom f re prev rest = true := by
  cases rest <;> simp [searchFrom, h]

/-- A successful match at some suffix makes the whole search succeed,
whatever characters precede the suffix. -/
theorem searchFrom_of_suffix (f : Nat) (re : Re) :
    ∀ (u : List Char) (prev : Option Char) (v : List Char),
      (∀ p, M f re p v [] kTrue = true) → searchFrom f re prev (u ++ v) = true := by
  intro u
  induction u with
  | nil =>
    intro prev v h
    rw [List.nil_append]
    exact searchFrom_here f re prev v (h prev)
  | cons x u ih =>
    intro prev v h
    rw [List.cons_append, searchFrom, ih (some x) v h, Bool.or_true]

/-- `dropWhile` can only erase characters strictly before a
non-matching anchor character, and erases a prefix. -/
theorem dropWhile_anchor (p : Char → Bool) :
    ∀ (y : List Char) (x : Char) (w : List Char), p x = false →
      ∃ t s, (y ++ x :: w).dropWhile p = t ++ x :: w ∧ y = s ++ t := by
  intro y
  induction y with
  | nil =>
    intro x w hx
    exact ⟨[], [], by simp [List.dropWhile_cons, hx], rfl⟩
  | cons z y ih =>
    intro x w hx
    by_cases hz : p z = true
    · obtain ⟨t, s, h1, h2⟩ := ih x w hx
      refine ⟨t, z :: s, ?_, by simp [h2]⟩
      simpa [List.cons_append, List.dropWhile_cons, hz] using h1
    · refine ⟨z :: y, [], ?_, rfl⟩
      simp [List.cons_append, List.dropWhile_cons, hz]

/-- Stripping a string whose text contains a segment with non-whitespace
first character `x` and non-whitespace last character `y` keeps the
segment intact: only a prefix of the left context and a suffix of the
right context are removed. -/
theorem pyStrip_decomp (u : List Char) (x : Char) (mid : List Char) (y : Char)
    (v : List Char) (hx : isPyWs x = false) (hy : isPyWs y = false) :
    ∃ u1 v1 v2, pyStrip (u ++ (x :: (mid ++ (y :: v)))) =
      u1 ++ (x :: (mid ++ (y :: v1))) ∧ v = v1 ++ v2 := by
  obtain ⟨u1, _, hL, _⟩ := dropWhile_anchor isPyWs u x (mid ++ (y :: v)) hx
  have hrev : (u1 ++ (x :: (mid ++ (y :: v)))).reverse =
      v.reverse ++ (y :: ((u1 ++ (x :: mid)).reverse)) := by
    simp [List.reverse_append, List.append_assoc]
  obtain ⟨t, s, hR, hv⟩ :=
    dropWhile_anchor isPyWs v.reverse y ((u1 ++ (x :: mid)).reverse) hy
  refine ⟨u1, t.reverse, s.reverse, ?_, ?_⟩
  · unfold pyStrip
    rw [hL, hrev, hR]
    simp [List.reverse_append, List.append_assoc]
  · have := congrArg List.reverse hv
    simpa [List.reverse_append] using this

/-- The compiled root-deletion matcher. -/
def rootDeletionRe : Re := (compileRe rootDeletionPattern).getD Re.eps

/-- The root-deletion matcher succeeds on the line `rm -rf /` followed by
a line break, whatever follows and whatever the previous character, at
any fuel of at least 300. -/
theorem M_root_line_nl (m : Nat) (p : Option Char) (b : List Char) :
    M (m + 300) rootDeletionRe p ("rm -rf /".data ++ ('\n' :: b)) [] kTrue = true := rfl

/-- The root-deletion matcher succeeds on the final line `rm -rf /`. -/
theorem M_root_line_end (m : Nat) (p : Option Char) :
    M (m + 300) rootDeletionRe p ("rm -rf /".data) [] kTrue = true := rfl

/-- C8: every command whose first line is innocuous (no rule fires on it)
and that carries `rm -rf /` as a complete later line — terminated by a
line break or the end of the string — is still reported with the
root-deletion match: matching is line-anchored, not whole-string
anchored. -/
theorem multiline_containment (a b : String)
    (hb : b = "" ∨ ∃ b2 : String, b = "\n" ++ b2)
    (_hfirst : validate_command
      (String.mk (a.data.takeWhile (fun c => !(c == '\n')))) = []) :
    rootDeletionRule ∈ validate_command (a ++ "\nrm -rf /" ++ b) := by
  have hdata : (a ++ "\nrm -rf /" ++ b).data =
      (a.data ++ ['\n']) ++ ('r' :: ("m -rf ".data ++ ('/' :: b.data))) := by
    simp [String.data_append, List.append_assoc]
  obtain ⟨u1, v1, v2, hstrip, hsplit⟩ :=
    pyStrip_decomp (a.data ++ ['\n']) 'r' ("m -rf ".data) '/' b.data
      (by decide) (by decide)
  have hS : reSize rootDeletionRe = 57 := by decide
  have hcomp : compileRe rootDeletionPattern = some rootDeletionRe := by decide
  -- the fuel used by the hook on the stripped text is at least 300
  have hlen : 8 ≤ (u1 ++ ('r' :: ("m -rf ".data ++ ('/' :: v1)))).length := by
    simp [List.length_append]
    omega
  have hfuel : 300 ≤ fuelFor rootDeletionRe (u1 ++ ('r' :: ("m -rf ".data ++ ('/' :: v1)))) := by
    unfold fuelFor
    rw [hS]
    omega
  -- the match succeeds at the suffix starting the `rm -rf /` line
  have hM : ∀ p, M (fuelFor rootDeletionRe (u1 ++ ('r' :: ("m -rf ".data ++ ('/' :: v1)))))
      rootDeletionRe p ('r' :: ("m -rf ".data ++ ('/' :: v1))) [] kTrue = true := by
    intro p
    rw [show fuelFor rootDeletionRe (u1 ++ ('r' :: ("m -rf ".data ++ ('/' :: v1)))) =
        (fuelFor rootDeletionRe (u1 ++ ('r' :: ("m -rf ".data ++ ('/' :: v1)))) - 300) + 300
      from (Nat.sub_add_cancel hfuel).symm]
    rcases hb with hb | ⟨b2, hb⟩
    · have hv1 : v1 = [] := by
        have hnil : v1 ++ v2 = [] := by
          rw [← hsplit, hb]
        exact (List.append_eq_nil.mp hnil).1
      rw [hv1]
      exact M_root_line_end _ p
    · have hbd : b.data = '\n' :: b2.data := by
        rw [hb]
        rfl
      rw [hbd] at hsplit
      cases v1 with
      | nil => exact M_root_line_end _ p
      | cons c cs =>
        have hc : c = '\n' := by
          have := hsplit.symm
          rw [List.cons_append] at this
          exact (List.cons.injEq _ _ _ _).mp this |>.1
        rw [hc]
        exact M_root_line_nl _ p cs
  have hchk : searchOpt rootDeletionPattern (pyStrip (a ++ "\nrm -rf /" ++ b).data) =
      some true := by
    rw [hdata]
    simp only [searchOpt, hcomp]
    rw [hstrip]
    rw [searchFrom_of_suffix _ rootDeletionRe u1 none _ hM]
  exact mem_validateWith (by decide) hchk

/-- C8 witness: innocuous first line `echo hi`, the dangerous line last. -/
theorem multiline_containment_witness :
    rootDeletionRule ∈ validate_command ("echo hi" ++ "\nrm -rf /" ++ "") :=
  multiline_containment "echo hi" "" (Or.inl rfl) (by decide)

/-! ### C10: `>>` into an auth file fires both privilege rules

The overwrite matcher `>\s*/etc/(...)` also matches starting at the second
`>` of an append redirection `>>`, so both the overwrite and the append
rule fire on the same command. -/

def overwriteAuthRe : Re := (compileRe overwriteAuthPattern).getD Re.eps

def appendAuthRe : Re := (compileRe appendAuthPattern).getD Re.eps

/-- The shared `/etc/(passwd|shadow|sudoers)` suffix of the two compiled
auth-file matchers. -/
def etcTailRe : Re :=
  match appendAuthRe with
  | Re.seq _ (Re.seq _ (Re.seq _ t)) => t
  | _ => Re.eps

/-- Unfolding step of the matcher on a sequencing node. -/
theorem M_seq_intro {f : Nat} {a b : Re} {prev : Option Char} {rest : List Char}
    {caps : Caps} {k : MCont}
    (h : M f a prev rest caps (fun c1 p1 r1 caps1 =>
      M f b p1 r1 caps1 (fun c2 p2 r2 caps2 => k (c1 || c2) p2 r2 caps2)) = true) :
    M (f+1) (Re.seq a b) prev rest caps k = true := h

/-- Unfolding step of the matcher on a literal node. -/
theorem M_lit_intro {f : Nat} {c x : Char} {xs : List Char} {prev : Option Char}
    {caps : Caps} {k : MCont} (hc : ciEq c x = true)
    (h : k true (some x) xs caps = true) :
    M (f+1) (Re.lit c) prev (x :: xs) caps k = true := by
  show (ciEq c x && k true (some x) xs caps) = true
  rw [hc, Bool.true_and, h]

/-- The `/etc/(passwd|shadow|sudoers)` matcher succeeds on each of the
three auth files, whatever follows, at any fuel of at least 100. -/
theorem M_etcFiles (n : Nat) (p : Option Char) (caps : Caps) (fd tail : List Char)
    (hfd : fd = "passwd".data ∨ fd = "shadow".data ∨ fd = "sudoers".data) :
    M (n + 100) etcTailRe p ("/etc/".data ++ (fd ++ tail)) caps kTrue = true := by
  rcases hfd with h | h | h <;> subst h <;> rfl

/-- A `\s*` node consumes any all-whitespace block of the input, provided
the fuel exceeds its length. -/
theorem M_star_ws :
    ∀ (w : List Char), (∀ c ∈ w, isPyWs c = true) →
    ∀ (f : Nat) (prev : Option Char) (rest : List Char) (caps : Caps) (k : MCont),
      w.length + 1 ≤ f →
      (∀ (bfl : Bool) (p : Option Char), k bfl p rest caps = true) →
      M f (Re.star (Re.pcls PredClass.space)) prev (w ++ rest) caps k = true := by
  intro w
  induction w with
  | nil =>
    intro _ f prev rest caps k hf hk
    obtain ⟨f1, rfl⟩ : ∃ f1, f = f1 + 1 := ⟨f - 1, by omega⟩
    show (k false prev rest caps || _) = true
    rw [hk false prev, Bool.true_or]
  | cons c w ih =>
    intro hw f prev rest caps k hf hk
    simp only [List.length_cons] at hf
    obtain ⟨f2, rfl⟩ : ∃ f2, f = f2 + 1 + 1 := ⟨f - 2, by omega⟩
    have hc : isPyWs c = true := hw c (List.mem_cons_self c w)
    have hrec : M (f2+1) (Re.star (Re.pcls PredClass.space)) (some c) (w ++ rest) caps
        (fun _ p2 r2 c2 => k true p2 r2 c2) = true := by
      refine ih (fun x hx => hw x (List.mem_cons_of_mem c hx)) (f2+1) (some c) rest caps _
        (by omega) ?_
      intro bfl p
      exact hk true p
    have h2 : M (f2+1) (Re.pcls PredClass.space) prev (c :: (w ++ rest)) caps
        (fun c1 p1 r1 caps1 => c1 && M (f2+1) (Re.star (Re.pcls PredClass.space)) p1 r1 caps1
          (fun _ p2 r2 c2 => k true p2 r2 c2)) = true := by
      show (predMatches PredClass.space c &&
        (true && M (f2+1) (Re.star (Re.pcls PredClass.space)) (some c) (w ++ rest) caps
          (fun _ p2 r2 c2 => k true p2 r2 c2))) = true
      rw [show predMatches PredClass.space c = true from hc, Bool.true_and, Bool.true_and, hrec]
    show (k false prev (c :: (w ++ rest)) caps ||
      M (f2+1) (Re.pcls PredClass.space) prev (c :: (w ++ rest)) caps
        (fun c1 p1 r1 caps1 => c1 && M (f2+1) (Re.star (Re.pcls PredClass.space)) p1 r1 caps1
          (fun _ p2 r2 c2 => k true p2 r2 c2))) = true
    rw [h2, Bool.or_true]

/-- The append-to-auth-files matcher succeeds on `>>`, any whitespace
block, then `/etc/` and an auth file. -/
theorem M_append_auth (m : Nat) (w : List Char) (hw : ∀ c ∈ w, isPyWs c = true)
    (fd : List Char) (hfd : fd = "passwd".data ∨ fd = "shadow".data ∨ fd = "sudoers".data)
    (p : Option Char) (tail : List Char) :
    M ((m + w.length) + 150) appendAuthRe p
      ('>' :: ('>' :: (w ++ ("/etc/".data ++ (fd ++ tail))))) [] kTrue = true := by
  refine M_seq_intro ?_
  refine M_lit_intro (by decide) ?_
  refine M_seq_intro ?_
  refine M_lit_intro (by decide) ?_
  refine M_seq_intro ?_
  refine M_star_ws w hw _ _ _ _ _ ?hf ?hk
  case hk =>
    intro bfl p1
    show M ((m + w.length) + 147) etcTailRe p1 ("/etc/".data ++ (fd ++ tail)) []
      (fun c2 p2 r2 caps2 => kTrue (bfl || c2) p2 r2 caps2) = true
    exact M_etcFiles ((m + w.length) + 47) p1 [] fd tail hfd
  case hf => omega

/-- The overwrite-auth-files matcher succeeds starting at the second `>`
of an append redirection — its `>` matches inside `>>`. -/
theorem M_overwrite_auth (m : Nat) (w : List Char) (hw : ∀ c ∈ w, isPyWs c = true)
    (fd : List Char) (hfd : fd = "passwd".data ∨ fd = "shadow".data ∨ fd = "sudoers".data)
    (p : Option Char) (tail : List Char) :
    M ((m + w.length) + 150) overwriteAuthRe p
      ('>' :: (w ++ ("/etc/".data ++ (fd ++ tail)))) [] kTrue = true := by
  refine M_seq_intro ?_
  refine M_lit_intro (by decide) ?_
  refine M_seq_intro ?_
  refine M_star_ws w hw _ _ _ _ _ ?hf ?hk
  case hk =>
    intro bfl p1
    show M ((m + w.length) + 148) etcTailRe p1 ("/etc/".data ++ (fd ++ tail)) []
      (fun c2 p2 r2 caps2 => kTrue (bfl || c2) p2 r2 caps2) = true
    exact M_etcFiles ((m + w.length) + 48) p1 [] fd tail hfd
  case hf => omega

/-- Core of C10: any command whose text contains `>>`, an all-whitespace
block, then `/etc/` and one of the three auth files, is reported with both
the overwrite rule and the append rule. -/
theorem both_auth_rules_fire (u w v fdInit : List Char) (y : Char)
    (hw : ∀ c ∈ w, isPyWs c = true) (hy : isPyWs y = false)
    (hfd : fdInit ++ [y] = "passwd".data ∨ fdInit ++ [y] = "shadow".data ∨
      fdInit ++ [y] = "sudoers".data)
    (full : String)
    (hfull : full.data =
      u ++ ('>' :: ('>' :: (w ++ ("/etc/".data ++ ((fdInit ++ [y]) ++ v)))))) :
    overwriteAuthRule ∈ validate_command full ∧
    appendAuthRule ∈ validate_command full := by
  have hr1 : full.data =
      u ++ ('>' :: (('>' :: (w ++ ("/etc/".data ++ fdInit))) ++ (y :: v))) := by
    rw [hfull]
    simp [List.cons_append, List.append_assoc]
  obtain ⟨u1, v1, v2, hstrip, hsplit⟩ :=
    pyStrip_decomp u '>' ('>' :: (w ++ ("/etc/".data ++ fdInit))) y v (by decide) hy
  rw [← hr1] at hstrip
  have hstrip2 : pyStrip full.data =
      u1 ++ ('>' :: ('>' :: (w ++ ("/etc/".data ++ ((fdInit ++ [y]) ++ v1))))) := by
    rw [hstrip]
    simp [List.cons_append, List.append_assoc]
  have hSa : reSize appendAuthRe = 63 := by decide
  have hSo : reSize overwriteAuthRe = 61 := by decide
  have hca : compileRe appendAuthPattern = some appendAuthRe := by decide
  have hco : compileRe overwriteAuthPattern = some overwriteAuthRe := by decide
  have hlen : w.length + 8 ≤
      (u1 ++ ('>' :: ('>' :: (w ++ ("/etc/".data ++ ((fdInit ++ [y]) ++ v1)))))).length := by
    simp [List.length_append]
    omega
  have hMA : ∀ p, M (fuelFor appendAuthRe
        (u1 ++ ('>' :: ('>' :: (w ++ ("/etc/".data ++ ((fdInit ++ [y]) ++ v1)))))))
      appendAuthRe p ('>' :: ('>' :: (w ++ ("/etc/".data ++ ((fdInit ++ [y]) ++ v1)))))
      [] kTrue = true := by
    have hfuel : w.length + 150 ≤ fuelFor appendAuthRe
        (u1 ++ ('>' :: ('>' :: (w ++ ("/etc/".data ++ ((fdInit ++ [y]) ++ v1)))))) := by
      unfold fuelFor
      rw [hSa]
      omega
    intro p
    rw [show fuelFor appendAuthRe
        (u1 ++ ('>' :: ('>' :: (w ++ ("/etc/".data ++ ((fdInit ++ [y]) ++ v1)))))) =
        ((fuelFor appendAuthRe
          (u1 ++ ('>' :: ('>' :: (w ++ ("/etc/".data ++ ((fdInit ++ [y]) ++ v1)))))) -
            (w.length + 150) + w.length) + 150) from by omega]
    exact M_append_auth _ w hw (fdInit ++ [y]) hfd p v1
  have hchkA : searchOpt appendAuthPattern (pyStrip full.data) = some true := by
    rw [hstrip2]
    simp only [searchOpt, hca]
    rw [searchFrom_of_suffix _ _ u1 none _ hMA]
  have hstrip3 : pyStrip full.data =
      (u1 ++ ['>']) ++ ('>' :: (w ++ ("/etc/".data ++ ((fdInit ++ [y]) ++ v1)))) := by
    rw [hstrip2, List.append_cons u1 '>']
  have hMO : ∀ p, M (fuelFor overwriteAuthRe
        ((u1 ++ ['>']) ++ ('>' :: (w ++ ("/etc/".data ++ ((fdInit ++ [y]) ++ v1))))))
      overwriteAuthRe p ('>' :: (w ++ ("/etc/".data ++ ((fdInit ++ [y]) ++ v1))))
      [] kTrue = true := by
    have hfuel : w.length + 150 ≤ fuelFor overwriteAuthRe
        ((u1 ++ ['>']) ++ ('>' :: (w ++ ("/etc/".data ++ ((fdInit ++ [y]) ++ v1))))) := by
      unfold fuelFor
      rw [hSo]
      simp [List.length_append]
      omega
    intro p
    rw [show fuelFor overwriteAuthRe
        ((u1 ++ ['>']) ++ ('>' :: (w ++ ("/etc/".data ++ ((fdInit ++ [y]) ++ v1))))) =
        ((fuelFor overwriteAuthRe
          ((u1 ++ ['>']) ++ ('>' :: (w ++ ("/etc/".data ++ ((fdInit ++ [y]) ++ v1))))) -
            (w.length + 150) + w.length) + 150) from by omega]
    exact M_overwrite_auth _ w hw (fdInit ++ [y]) hfd p v1
  have hchkO : searchOpt overwriteAuthPattern (pyStrip full.data) = some true := by
    rw [hstrip3]
    simp only [searchOpt, hco]
    rw [searchFrom_of_suffix _ _ (u1 ++ ['>']) none _ hMO]
  exact ⟨mem_validateWith (by decide) hchkO, mem_validateWith (by decide) hchkA⟩

/-- C10: a command containing `>>` followed, after optional whitespace, by
`/etc/passwd`, `/etc/shadow` or `/etc/sudoers` makes both the
overwrite-auth-files rule and the append-auth-files rule fire — the
overwrite matcher's `>` also matches inside `>>` — so `validate_command`
returns at least two matches. -/
theorem append_redirection_double_match (u w v file : String)
    (hw : ∀ c ∈ w.data, isPyWs c = true)
    (hfile : file = "passwd" ∨ file = "shadow" ∨ file = "sudoers") :
    overwriteAuthRule ∈ validate_command (u ++ ">>" ++ w ++ "/etc/" ++ file ++ v) ∧
    appendAuthRule ∈ validate_command (u ++ ">>" ++ w ++ "/etc/" ++ file ++ v) ∧
    2 ≤ (validate_command (u ++ ">>" ++ w ++ "/etc/" ++ file ++ v)).length := by
  have hboth :
      overwriteAuthRule ∈ validate_command (u ++ ">>" ++ w ++ "/etc/" ++ file ++ v) ∧
      appendAuthRule ∈ validate_command (u ++ ">>" ++ w ++ "/etc/" ++ file ++ v) := by
    rcases hfile with h | h | h <;> subst h
    · refine both_auth_rules_fire u.data w.data v.data ("passw".data) 'd' hw (by decide)
        (Or.inl rfl) _ ?_
      simp only [String.data_append, List.append_assoc, List.singleton_append,
        List.cons_append]
      rfl
    · refine both_auth_rules_fire u.data w.data v.data ("shado".data) 'w' hw (by decide)
        (Or.inr (Or.inl rfl)) _ ?_
      simp only [String.data_append, List.append_assoc, List.singleton_append,
        List.cons_append]
      rfl
    · refine both_auth_rules_fire u.data w.data v.data ("sudoer".data) 's' hw (by decide)
        (Or.inr (Or.inr rfl)) _ ?_
      simp only [String.data_append, List.append_assoc, List.singleton_append,
        List.cons_append]
      rfl
  exact ⟨hboth.1, hboth.2,
    two_le_length_of_mem_ne hboth.1 hboth.2 (by decide)⟩

/-- C10 witness: `cat >> /etc/passwd` (one space of separating
whitespace). -/
theorem append_redirection_double_match_witness :
    overwriteAuthRule ∈ validate_command ("cat " ++ ">>" ++ " " ++ "/etc/" ++ "passwd" ++ "") ∧
    appendAuthRule ∈ validate_command ("cat " ++ ">>" ++ " " ++ "/etc/" ++ "passwd" ++ "") ∧
    2 ≤ (validate_command ("cat " ++ ">>" ++ " " ++ "/etc/" ++ "passwd" ++ "")).length :=
  append_redirection_double_match "cat " " " "" "passwd" (by decide) (Or.inl rfl)

end BashSafety

